import Mathlib

/-!
Verification of the BLE peripheral-interaction core of the `homebridge-soma`
repository against its natural-language specification.

The JavaScript source is shallowly embedded: byte buffers become `List Nat`
(one entry per byte), `Buffer.readUIntXXLE` / `writeUIntXXLE` become explicit
arithmetic on those lists, JavaScript strings become `List Char`, decoders
that may throw become `Option`-valued functions, and the asynchronous
request/response machinery of `BleClient.request` becomes an explicit state
machine driven by a list of events.  Every definition mirrors a concrete
function of the repository; the mirrored file and lines are named in the
doc comments.
-/

namespace Spec2Proof

/-! ### Buffer primitives (Node.js `Buffer` reads and writes) -/

/-- Model of `buffer.readUInt8(i)`; buffers are lists of bytes. -/
def readUInt8 (b : List Nat) (i : Nat) : Nat := b.getD i 0

/-- Model of `buffer.readUInt16LE(i)` (little endian). -/
def readUInt16LE (b : List Nat) (i : Nat) : Nat :=
  readUInt8 b i + 256 * readUInt8 b (i + 1)

/-- Model of `buffer.readUInt32LE(i)` (little endian). -/
def readUInt32LE (b : List Nat) (i : Nat) : Nat :=
  readUInt8 b i + 256 * readUInt8 b (i + 1) + 65536 * readUInt8 b (i + 2) +
    16777216 * readUInt8 b (i + 3)

/-- Model of `buffer.readInt32LE(i)`: two's complement of the 32-bit word. -/
def readInt32LE (b : List Nat) (i : Nat) : Int :=
  if readUInt32LE b i < 2 ^ 31 then (readUInt32LE b i : Int)
  else (readUInt32LE b i : Int) - 2 ^ 32

/-- Model of `buffer.writeUInt8(v, i)`. -/
def writeUInt8 (b : List Nat) (v i : Nat) : List Nat := b.set i (v % 256)

/-- Model of `buffer.writeUInt16LE(v, i)`. -/
def writeUInt16LE (b : List Nat) (v i : Nat) : List Nat :=
  ((b.set i (v % 256)).set (i + 1) (v / 256 % 256))

/-- Model of `buffer.writeUInt32LE(v, i)`. -/
def writeUInt32LE (b : List Nat) (v i : Nat) : List Nat :=
  ((((b.set i (v % 256)).set (i + 1) (v / 256 % 256)).set
    (i + 2) (v / 65536 % 256)).set (i + 3) (v / 16777216 % 256))

/-- Model of `Buffer.alloc(n, fill)`. -/
def bufAlloc (n fill : Nat) : List Nat := List.replicate n fill

/-! ### JavaScript string helpers used by `parseCString` -/

/-- Whitespace recognised by JavaScript `String.prototype.trim`
(tab, LF, VT, FF, CR, space, NBSP, line/paragraph separator, BOM). -/
def jsWhitespace (c : Char) : Bool :=
  c = ' ' || c = Char.ofNat 9 || c = Char.ofNat 10 || c = Char.ofNat 11 ||
  c = Char.ofNat 12 || c = Char.ofNat 13 || c = Char.ofNat 0xA0 ||
  c = Char.ofNat 0x2028 || c = Char.ofNat 0x2029 || c = Char.ofNat 0xFEFF

/-- Model of `s.trim()`: strip `jsWhitespace` from both ends. -/
def jsTrim (s : List Char) : List Char :=
  ((s.dropWhile jsWhitespace).reverse.dropWhile jsWhitespace).reverse

/-- ASCII digit test, as the regex character class `[0-9]`. -/
def isAsciiDigit (c : Char) : Bool := '0' ≤ c && c ≤ '9'

/-- JavaScript regex line terminators, which `.` does not match. -/
def isLineTerm (c : Char) : Bool :=
  c = Char.ofNat 10 || c = Char.ofNat 13 || c = Char.ofNat 0x2028 ||
  c = Char.ofNat 0x2029

/-- Model of `/^.*[^0-9 ]0$/.test(s)`: the string ends in a `'0'` whose
preceding character exists and is neither a digit nor a space, and (because
`.` does not cross line terminators) everything before those last two
characters is free of line terminators. -/
def strayZeroTest (s : List Char) : Bool :=
  match s.reverse with
  | '0' :: c :: rest =>
    (!(isAsciiDigit c) && c != ' ') && rest.all (fun d => !(isLineTerm d))
  | _ => false

/-- Model of `parseCString` (`lib/SomaClient.js` lines 46-53, identical in
the historical variants): cut at the first NUL (`slice(0, indexOf('\0'))`,
which drops only the final character when there is no NUL because
`indexOf` returns `-1`), trim, and drop one further character when the
stray-zero regex matches. -/
def parseCString (s : List Char) : List Char :=
  let t := match s.findIdx? (fun c => c = Char.ofNat 0) with
    | some i => s.take i
    | none => s.dropLast
  let u := jsTrim t
  if strayZeroTest u then u.dropLast else u

/-- Bytes of a buffer viewed as characters, for `buffer.toString()` on
ASCII content, feeding `parseCString`. -/
def parseCStringBytes (b : List Nat) : List Char :=
  parseCString (b.map (fun v => Char.ofNat v))

/-! ### Manufacturer advertisement decoder

Mirrors `parseManufacturerData` of `lib/SomaClient.js` in its final,
capability-bit-gated form (the variant at `src/unnamed/part_002` lines
357-375): byte 2 is the protocol, byte 3 the battery byte whose high bit
flags a tilt-capable (venetian) device — the CLI renders the flag as the
device type "Tilt" — and bytes 4-5 are the positions, rescaled from
0..100 to -100..100 exactly when the flag is set. -/

structure ManufacturerData where
  advDataProtocol : Nat
  battery : Nat
  supportsUp : Bool
  currentPosition : Int
  targetPosition : Int
  displayName : List Char
deriving Repr, DecidableEq

/-- Model of the gated `parseManufacturerData` (`src/unnamed/part_002`
lines 357-375).  The source first stores the raw fields, then, when
`battery & 0x80` is set, masks the battery, records the capability and
rescales both positions by `*2 - 100`. -/
def parseManufacturerData (b : List Nat) : ManufacturerData :=
  let battery := readUInt8 b 3
  let currentPosition : Int := (readUInt8 b 4 : Int)
  let targetPosition : Int := (readUInt8 b 5 : Int)
  let displayName := parseCStringBytes (b.drop 6)
  let advDataProtocol := readUInt8 b 2
  if battery &&& 0x80 ≠ 0 then
    { advDataProtocol, battery := battery &&& 0x7F, supportsUp := true,
      currentPosition := currentPosition * 2 - 100,
      targetPosition := targetPosition * 2 - 100, displayName }
  else
    { advDataProtocol, battery, supportsUp := false,
      currentPosition, targetPosition, displayName }

/-! ### Weekday bitmask decoding of a motor trigger record

Mirrors the weekday section of `parseTrigger` (`src/unnamed/part_002`
lines 126-167): mask `0x7F` renders as "Every Day", otherwise the set
days are collected (`Mon` for bit 1 through `Sat` for bit 6, then `Sun`
for bit 0) and joined with spaces. -/

/-- The day list built by the `days.push(...)` sequence of `parseTrigger`. -/
def weekdayDays (weekdays : Nat) : List String :=
  (if weekdays &&& 0x02 ≠ 0 then ["Mon"] else []) ++
  (if weekdays &&& 0x04 ≠ 0 then ["Tue"] else []) ++
  (if weekdays &&& 0x08 ≠ 0 then ["Wed"] else []) ++
  (if weekdays &&& 0x10 ≠ 0 then ["Thu"] else []) ++
  (if weekdays &&& 0x20 ≠ 0 then ["Fri"] else []) ++
  (if weekdays &&& 0x40 ≠ 0 then ["Sat"] else []) ++
  (if weekdays &&& 0x01 ≠ 0 then ["Sun"] else [])

/-- The weekday text of `parseTrigger`: `Every Day` for mask `0x7F`,
otherwise the joined day list. -/
def weekdaysTriggerText (weekdays : Nat) : String :=
  if weekdays = 0x7F then "Every Day"
  else String.intercalate " " (weekdayDays weekdays)

/-! ### Motor trigger records and the `setTriggerEnabled` edit frame

A trigger record occupies 7 bytes: a signed 32-bit value (sunrise/sunset
offset, light level, or a timestamp, selected by the flags), the weekday
mask, the position, and the flags byte (bit 0 enabled, bit 7 morning
mode).  `parseTrigger` reads it at offset 3 of a Motor Trigger Request
frame and at offset 4 of a Motor Trigger Response frame. -/

structure ParsedTrigger where
  value : Int
  weekdays : Nat
  position : Nat
  flags : Nat
  morningMode : Bool
  enabled : Bool
deriving Repr, DecidableEq

/-- Field extraction of `parseTrigger` at a record offset (the structured
content underlying both the `lib/SomaClient.js` and `src/unnamed/part_002`
renderings): `readInt32LE(offset)`, `readUInt8(offset+4)` weekdays,
`readUInt8(offset+5)` position, `readUInt8(offset+6)` flags with
`flags & 0x80` morning mode and `flags & 0x01` enabled. -/
def parseTriggerRecord (b : List Nat) (off : Nat) : ParsedTrigger :=
  { value := readInt32LE b off
    weekdays := readUInt8 b (off + 4)
    position := readUInt8 b (off + 5)
    flags := readUInt8 b (off + 6)
    morningMode := readUInt8 b (off + 6) &&& 0x80 ≠ 0
    enabled := readUInt8 b (off + 6) &&& 0x01 ≠ 0 }

/-- Trigger id of a Motor Trigger Request frame (`b.readUInt16LE(1)`). -/
def triggerRequestId (b : List Nat) : Nat := readUInt16LE b 1

/-- The edit frame built by `setTriggerEnabled` in `lib/SomaClient.js`
lines 364-381: a 17-byte buffer filled with `0x37`, command `0x43`
(edit) at 0, the id at 1, then the response fields copied with the
offsets the source uses — value from response offset 3 written at 2,
weekdays from 7 written at 6, position from 8 written at 7 and the
flags byte from 9, with bit 0 forced to `enabled`, written at 8. -/
def setTriggerEnabledFrameLib (resp : List Nat) (id : Nat) (enabled : Bool) :
    List Nat :=
  let b := bufAlloc 17 0x37
  let b := writeUInt8 b 0x43 0
  let b := writeUInt16LE b id 1
  let b := writeUInt32LE b (readUInt32LE resp 3) 2
  let b := writeUInt8 b (readUInt8 resp 7) 6
  let b := writeUInt8 b (readUInt8 resp 8) 7
  let flags := readUInt8 resp 9
  let flags := if enabled then flags ||| 0x01 else flags &&& 0xFE
  writeUInt8 b flags 8

/-- The corrected edit frame of `setTriggerEnabled` in
`src/unnamed/part_002` lines 487-504 (and 1044-1061): value from
response offset 4 written at 3, weekdays from 8 at 7, position from 9
at 8, flags from 10 (bit 0 forced to `enabled`) at 9 — matching
`parseTrigger(b, 3)` of the request decoder. -/
def setTriggerEnabledFrameV2 (resp : List Nat) (id : Nat) (enabled : Bool) :
    List Nat :=
  let b := bufAlloc 17 0x37
  let b := writeUInt8 b 0x43 0
  let b := writeUInt16LE b id 1
  let b := writeUInt32LE b (readUInt32LE resp 4) 3
  let b := writeUInt8 b (readUInt8 resp 8) 7
  let b := writeUInt8 b (readUInt8 resp 9) 8
  let flags := readUInt8 resp 10
  let flags := if enabled then flags ||| 0x01 else flags &&& 0xFE
  writeUInt8 b flags 9

/-! ### Retry policy of the peripheral delegate (C3)

`BlePeripheralDelegate.read` / `write` / `readAll` in
`src/unnamed/part_004` (lines 1340-1454) follow one shape: `await` the
whole body — connect, discovery, the operation — and on an error that
is `instanceof BleError`, while the implicit counter is below
`this.client.maxRetry`, call themselves again with the counter
incremented; any other error propagates unchanged.  `subscribe`
(lines 1462-1476) differs in one decisive detail: the delegate call
`this.serviceDelegates[serviceKey].subscribe(characteristicKey)` at
line 1468 is returned *without* `await`, so only the awaited phase
(`connect()` and the unknown-key check) runs inside the try block; a
rejection of the returned promise — a discovery failure or a native
subscribe failure — bypasses the catch and reaches the caller
un-retried. -/

/-- The error taxonomy relevant to retrying: `BleError` (timeout,
disabled, unexpected disconnect, discovery failure) versus the
programming errors `RangeError` (unknown key) and `SyntaxError`
(unsupported capability). -/
inductive OpError where
  | bleError (msg : String)
  | rangeError (msg : String)
  | syntaxError (msg : String)
deriving Repr, DecidableEq

/-- Model of `error instanceof BleError`. -/
def isBleError : OpError → Bool
  | .bleError _ => true
  | _ => false

/-- Model of `this.maxRetry = params.retry != null ? params.retry : 5`
(`src/unnamed/part_004` line 868). -/
def bleClientMaxRetry (retryParam : Option Nat) : Nat :=
  match retryParam with
  | some r => r
  | none => 5

/-- The retry loop of `read`, `write` and `readAll`, whose bodies are
fully awaited inside the try block: `attempt n` is the outcome of the
n-th execution of the whole body (a fresh connect, discovery and the
native call). -/
def retryRun {α : Type} (attempt : Nat → Except OpError α)
    (maxRetry : Nat) (retry : Nat) : Except OpError α :=
  match attempt retry with
  | .ok v => .ok v
  | .error e =>
    if h : isBleError e ∧ retry < maxRetry then
      retryRun attempt maxRetry (retry + 1)
    else .error e
termination_by maxRetry + 1 - retry
decreasing_by omega

/-- The retry loop of `subscribe` (`src/unnamed/part_004` lines
1462-1476), split at the missing `await`: `awaited n` is the outcome of
the n-th execution of the awaited phase (`await this.connect()` and the
unknown-key check), whose errors the catch sees; when that phase
succeeds, the body returns the delegate subscribe promise
(`delegatePromise n`, covering discovery and the native subscribe)
without awaiting it, so that promise's rejection escapes the try block
and is never retried. -/
def subscribeRun {α : Type} (awaited : Nat → Except OpError Unit)
    (delegatePromise : Nat → Except OpError α)
    (maxRetry : Nat) (retry : Nat) : Except OpError α :=
  match awaited retry with
  | .ok _ => delegatePromise retry
  | .error e =>
    if h : isBleError e ∧ retry < maxRetry then
      subscribeRun awaited delegatePromise maxRetry (retry + 1)
    else .error e
termination_by maxRetry + 1 - retry
decreasing_by omega

/-! ### `readAll` aggregation over a service (C7, C9)

`BleServiceDelegate.readAll` (`lib/BleClient.js` lines 753-767,
`src/unnamed/part_004` lines 1612-1628) iterates the characteristic
delegates in order; for each it discovers, and only when
`delegate.canRead` holds reads it, adding `response.parsedValue` to the
map when that value is non-null. -/

/-- Service-level `readAll` over the list of characteristic delegates,
abstracted by their read capability and the parsed value their read
produces (`none` models a null `parsedValue`). -/
def readAllService {V : Type} (cs : List (String × Bool × Option V)) :
    List (String × V) :=
  match cs with
  | [] => []
  | (k, canRead, parsed) :: rest =>
    (if canRead then
      match parsed with
      | some v => [(k, v)]
      | none => []
    else []) ++ readAllService rest

/-- Model of `toHex(v, 2, false)` for a byte: two uppercase hex digits. -/
def toHexByte (v : Nat) : String :=
  let d := fun n => if n < 10 then Char.ofNat (48 + n) else Char.ofNat (55 + n)
  String.mk [d (v / 16 % 16), d (v % 16)]

/-- Model of `bufferToHex` (`lib/BleUtils.js` lines 26-33) on a buffer. -/
def bufferToHexJs (b : List Nat) : String :=
  "0x" ++ String.intercalate " " (b.map toHexByte)

/-- The parsed value a `BleResponse` ends up with after
`BlePeripheralDelegate.request` (`lib/BleClient.js` lines 58-85 and
665-693): the constructor initialises it to the hex rendering of the
buffer, and the delegate re-parses through the characteristic decoder
only when the buffer is non-empty, swallowing a decoder throw (modelled
by the decoder returning `none`) so that the hex fallback survives. -/
inductive ParsedValue (V : Type) where
  | hex (s : String)
  | value (v : V)
deriving Repr, DecidableEq

/-- Parsed value of a read response, given the characteristic decoder. -/
def responseParsedValue {V : Type} (f : List Nat → Option V)
    (buffer : List Nat) : ParsedValue V :=
  if buffer.length > 0 then
    match f buffer with
    | some v => .value v
    | none => .hex (bufferToHexJs buffer)
  else .hex (bufferToHexJs buffer)

/-- Service-level `readAll` including the decode step: each readable
characteristic is read and contributes its parsed value (for buffer
responses the parsed value is never null, as it falls back to hex). -/
def readAllWithDecode {V : Type}
    (cs : List (String × Bool × List Nat × (List Nat → Option V))) :
    List (String × ParsedValue V) :=
  match cs with
  | [] => []
  | (k, canRead, buf, f) :: rest =>
    (if canRead then [(k, responseParsedValue f buf)] else []) ++
      readAllWithDecode rest

/-! ### The request/response core as a state machine (C2, C4)

`BleClient.request` (`src/unnamed/part_004` lines 1067-1157, the
superset of `lib/BleClient.js` lines 307-384) wraps a native promise in
a new promise guarded by a timeout timer, a `once('disabled', ...)`
listener and — for peripheral requests other than `disconnect` — a
`once('disconnected', ...)` listener.  JavaScript promise semantics make
the first call to `resolve`/`reject` win and every later call a no-op;
`settle` captures exactly that.  The synchronous body of `request` is
`clientIssue`; the later asynchronous happenings — the timer firing, the
guard events, the native promise fulfilling or rejecting — are the
events of `bleStep`. -/

inductive Outcome where
  | resolved
  | rejectedTimeout
  | rejectedDisabled
  | rejectedDisconnect
  | rejectedOp
deriving Repr, DecidableEq

structure RequestState where
  timerCreated : Bool := false
  timerArmed : Bool := false
  timerFired : Bool := false
  disabledListener : Bool := false
  disconnectListener : Bool := false
  emittedRequest : Bool := false
  continuations : Bool := false
  settled : Option Outcome := none
deriving Repr, DecidableEq

/-- First `resolve`/`reject` call wins; later calls are discarded. -/
def settle (s : RequestState) (o : Outcome) : RequestState :=
  match s.settled with
  | none => { s with settled := some o }
  | some _ => s

def initRequestState : RequestState := {}

/-- The synchronous body of `BleClient.request`
(`src/unnamed/part_004` lines 1067-1128): create and arm the timeout
timer; for a client-scoped request assign the id and emit `request`,
for a peripheral-scoped request other than `disconnect` attach the
`disconnected` guard; attach the `disabled` guard; then, when the
adapter is not enabled, clear the timer, detach both guards and reject
with the bluetooth-disabled `BleError` without ever attaching the
promise continuations; otherwise attach `then`/`catch`/`finally` to the
native promise. -/
def clientIssue (enabled periphScoped isDisconnectReq : Bool)
    (s : RequestState) : RequestState :=
  let s := { s with timerCreated := true, timerArmed := true }
  let s :=
    if !periphScoped then { s with emittedRequest := true }
    else if !isDisconnectReq then { s with disconnectListener := true }
    else s
  let s := { s with disabledListener := true }
  if !enabled then
    settle
      { s with
        timerArmed := false
        disabledListener := false
        disconnectListener := false } .rejectedDisabled
  else
    { s with continuations := true }

/-- A peripheral-scoped request goes through
`BlePeripheralDelegate.request` (`src/unnamed/part_004` lines
1501-1529), which assigns the id and emits `request` before delegating
to `BleClient.request`. -/
def delegateIssue (enabled isDisconnectReq : Bool) : RequestState :=
  clientIssue enabled true isDisconnectReq
    { initRequestState with emittedRequest := true }

inductive BleEvent where
  | timeout
  | disabledEvt
  | disconnectedEvt
  | opFulfilled
  | opRejected
deriving Repr, DecidableEq

/-- One asynchronous happening after `clientIssue`.  The timer callback
removes both guards and rejects with the timeout error; the `disabled`
guard clears the timer, removes the other guard and rejects; the
`disconnected` guard likewise; the native promise continuations settle
and then run the `finally` cleanup, and they run at most once because a
native promise settles once. -/
def bleStep (s : RequestState) : BleEvent → RequestState
  | .timeout =>
    if s.timerArmed then
      settle
        { s with
          timerArmed := false
          timerFired := true
          disabledListener := false
          disconnectListener := false } .rejectedTimeout
    else s
  | .disabledEvt =>
    if s.disabledListener then
      settle
        { s with
          timerArmed := false
          disabledListener := false
          disconnectListener := false } .rejectedDisabled
    else s
  | .disconnectedEvt =>
    if s.disconnectListener then
      settle
        { s with
          timerArmed := false
          disabledListener := false
          disconnectListener := false } .rejectedDisconnect
    else s
  | .opFulfilled =>
    if s.continuations then
      { (settle s .resolved) with
        continuations := false
        timerArmed := false
        disabledListener := false
        disconnectListener := false }
    else s
  | .opRejected =>
    if s.continuations then
      { (settle s .rejectedOp) with
        continuations := false
        timerArmed := false
        disabledListener := false
        disconnectListener := false }
    else s

/-- Run a sequence of asynchronous events. -/
def bleRun (s : RequestState) (es : List BleEvent) : RequestState :=
  es.foldl bleStep s

/-! ### Delegate handles across a disconnect (C5)

`BlePeripheralDelegate`'s `disconnect` handler (`lib/BleClient.js`
lines 472-489) assigns `null` to every service delegate's `service`,
whose setter (lines 709-718) cascades `null` into every characteristic
delegate's `characteristic`.  A later read goes `connect` →
`BleServiceDelegate.discover` (a `discoverService` request when the
handle is null) → `BleCharacteristicDelegate.discover` (a
`discoverCharacteristic` request when that handle is null) → the
`read` request. -/

structure CharacteristicDelegateM where
  key : String
  characteristic : Option Nat
deriving Repr, DecidableEq

structure ServiceDelegateM where
  key : String
  service : Option Nat
  characteristicDelegates : List CharacteristicDelegateM
deriving Repr, DecidableEq

/-- The `service` setter of `BleServiceDelegate`: assigning `null`
nulls every characteristic delegate's handle. -/
def setService (sd : ServiceDelegateM) (s : Option Nat) : ServiceDelegateM :=
  { sd with
    service := s
    characteristicDelegates :=
      if s = none then
        sd.characteristicDelegates.map
          (fun cd => { cd with characteristic := none })
      else sd.characteristicDelegates }

/-- The `disconnect` handler's loop over `this.serviceDelegates`. -/
def onDisconnect (sds : List ServiceDelegateM) : List ServiceDelegateM :=
  sds.map (fun sd => setService sd none)

inductive BleAction where
  | connectA
  | discoverService (key : String)
  | discoverCharacteristic (key : String)
  | readA (key : String)
  | writeA (key : String)
deriving Repr, DecidableEq

/-- The sequence of BLE requests a `read(serviceKey, characteristicKey)`
performs (idempotent `connect` calls collapsed to one action):
`connect`, a `discoverService` request exactly when the service handle
is null, a `discoverCharacteristic` request exactly when the
characteristic handle is null, then the `read` itself. -/
def readTrace (sd : ServiceDelegateM) (cd : CharacteristicDelegateM) :
    List BleAction :=
  BleAction.connectA ::
    (if sd.service = none then [BleAction.discoverService sd.key] else []) ++
    (if cd.characteristic = none then
      [BleAction.discoverCharacteristic cd.key] else []) ++
    [BleAction.readA cd.key]

/-- The corresponding sequence for `write`. -/
def writeTrace (sd : ServiceDelegateM) (cd : CharacteristicDelegateM) :
    List BleAction :=
  BleAction.connectA ::
    (if sd.service = none then [BleAction.discoverService sd.key] else []) ++
    (if cd.characteristic = none then
      [BleAction.discoverCharacteristic cd.key] else []) ++
    [BleAction.writeA cd.key]

/-! ### Sample data used by concrete witnesses and counterexamples -/

/-- A manufacturer advertisement: protocol 2, battery byte `0x8A`
(capability flag set, 10%), positions 30 and 80, display name `A`. -/
def mfgSample : List Nat := [0, 0, 2, 0x8A, 30, 80, 65, 0]

/-- A Motor Trigger Response buffer: status `0x30` (success), command
`0x33` (read), id 7, then the trigger record — value bytes
`04 03 02 01`, weekday mask `0x7F`, position `0x32`, flags `0x81`
(enabled, morning mode) — padded with `0x37`. -/
def triggerRespSample : List Nat :=
  [0x30, 0x33, 0x07, 0x00, 0x04, 0x03, 0x02, 0x01, 0x7F, 0x32, 0x81,
   0x37, 0x37, 0x37, 0x37, 0x37, 0x37]

/-- An operation body that times out on its first three executions and
succeeds on the fourth (the spec's retry scenario). -/
def attemptThreeTimeouts : Nat → Except OpError Nat :=
  fun n => if n < 3 then .error (.bleError "no response in 15s") else .ok 42

/-- An operation body that fails with a programming error. -/
def attemptUnknownKey : Nat → Except OpError Nat :=
  fun _ => .error (.rangeError "motorService: unknown service key")

/-- A subscribe whose awaited phase (connect and key check) always
succeeds. -/
def subscribeAwaitedOk : Nat → Except OpError Unit := fun _ => .ok ()

/-- A subscribe whose awaited phase times out on its first two
executions and succeeds from the third on. -/
def subscribeConnectTwoTimeouts : Nat → Except OpError Unit :=
  fun n => if n < 2 then .error (.bleError "no response in 15s") else .ok ()

/-- A delegate subscribe promise that fails with a BLE discovery error
on the first execution and would succeed on any re-execution. -/
def subscribeDiscoveryFailsOnce : Nat → Except OpError Nat :=
  fun n =>
    if n = 0 then .error (.bleError "cannot discover characteristic")
    else .ok 1

/-- A characteristic decoder that succeeds (first byte of the buffer). -/
def decodeSampleGood : List Nat → Option Nat := fun b => some (readUInt8 b 0)

/-- A characteristic decoder that throws on every buffer. -/
def decodeSampleBad : List Nat → Option Nat := fun _ => none

/-- A connected service delegate with one bound characteristic. -/
def svcSample : ServiceDelegateM :=
  { key := "motorService", service := some 1,
    characteristicDelegates :=
      [{ key := "motorTargetState", characteristic := some 2 }] }

/-! ### Helper lemmas -/

/-- A byte with the `0x80` bit clear is unchanged by masking with `0x7F`. -/
lemma and127_of_and128_eq_zero (x : Nat) (hx : x < 256)
    (h : x &&& 128 = 0) : x &&& 127 = x := by
  have h1 : x &&& 127 = x % 128 := by
    have h2 := Nat.and_pow_two_sub_one_eq_mod x 7
    norm_num at h2
    exact h2
  have h3 : x.testBit 7 = false := by
    cases h4 : x.testBit 7
    · rfl
    · have h5 := Nat.and_two_pow x 7
      rw [h4] at h5
      norm_num at h5
      omega
  have h6 : ¬ x / 2 ^ 7 % 2 = 1 := by
    simpa [Nat.testBit_to_div_mod] using h3
  norm_num at h6
  rw [h1]
  omega

/-- Membership in a conditional singleton. -/
lemma mem_ite_singleton {α : Type} (c : Prop) [Decidable c] (a b : α) :
    a ∈ (if c then [b] else []) ↔ c ∧ a = b := by
  split <;> simp_all

/-- Trimming never lengthens a string. -/
lemma jsTrim_length_le (t : List Char) : (jsTrim t).length ≤ t.length := by
  unfold jsTrim
  calc ((t.dropWhile jsWhitespace).reverse.dropWhile
          jsWhitespace).reverse.length
      = ((t.dropWhile jsWhitespace).reverse.dropWhile jsWhitespace).length :=
        List.length_reverse _
    _ ≤ (t.dropWhile jsWhitespace).reverse.length :=
        (List.dropWhile_sublist _).length_le
    _ = (t.dropWhile jsWhitespace).length := List.length_reverse _
    _ ≤ t.length := (List.dropWhile_sublist _).length_le

/-- `settle` never erases an outcome. -/
lemma settle_settled_of_some (s : RequestState) (o o2 : Outcome)
    (h : s.settled = some o) : (settle s o2).settled = some o := by
  unfold settle
  split <;> simp_all

/-- `settle` always leaves an outcome in place. -/
lemma settle_settled_ne_none (s : RequestState) (o : Outcome) :
    (settle s o).settled ≠ none := by
  unfold settle
  split <;> simp_all

/-- `settle` only touches the `settled` field: the timer flags survive. -/
lemma settle_timerFired (s : RequestState) (o : Outcome) :
    (settle s o).timerFired = s.timerFired := by
  unfold settle
  split <;> rfl

lemma settle_timerArmed (s : RequestState) (o : Outcome) :
    (settle s o).timerArmed = s.timerArmed := by
  unfold settle
  split <;> rfl

lemma settle_continuations (s : RequestState) (o : Outcome) :
    (settle s o).continuations = s.continuations := by
  unfold settle
  split <;> rfl

/-- Once settled, no later event changes the outcome (one step). -/
lemma bleStep_settled_mono (s : RequestState) (e : BleEvent) (o : Outcome)
    (h : s.settled = some o) : (bleStep s e).settled = some o := by
  cases e <;> simp only [bleStep] <;> split <;>
    first
      | exact h
      | exact settle_settled_of_some _ _ _ h

/-- Once settled, no later event sequence changes the outcome. -/
lemma bleRun_settled_mono (s : RequestState) (es : List BleEvent)
    (o : Outcome) (h : s.settled = some o) :
    (bleRun s es).settled = some o := by
  induction es generalizing s with
  | nil => simpa [bleRun] using h
  | cons e es ih => exact ih _ (bleStep_settled_mono s e o h)

/-- The invariant "no continuations attached implies already settled"
is preserved by every event. -/
lemma bleStep_cont_inv (s : RequestState) (e : BleEvent)
    (h : s.continuations = false → s.settled ≠ none) :
    (bleStep s e).continuations = false → (bleStep s e).settled ≠ none := by
  cases e <;> simp only [bleStep] <;> split <;> intro hc <;>
    first
      | exact settle_settled_ne_none _ _
      | exact h hc

/-- A completion of the native operation settles the request. -/
lemma bleRun_op_settles (es : List BleEvent) (s : RequestState)
    (hin : BleEvent.opFulfilled ∈ es ∨ BleEvent.opRejected ∈ es)
    (hinv : s.continuations = false → s.settled ≠ none) :
    (bleRun s es).settled ≠ none := by
  induction es generalizing s with
  | nil => simp at hin
  | cons e es ih =>
    have hstep := bleStep_cont_inv s e hinv
    have hrun : bleRun s (e :: es) = bleRun (bleStep s e) es := rfl
    rw [hrun]
    rcases hin with hin | hin <;> rcases List.mem_cons.mp hin with rfl | htail
    · have h1 : (bleStep s BleEvent.opFulfilled).settled ≠ none := by
        simp only [bleStep]
        split
        · exact settle_settled_ne_none _ _
        · exact hinv (by simp_all)
      obtain ⟨o, ho⟩ := Option.ne_none_iff_exists'.mp h1
      simp [bleRun_settled_mono _ es o ho]
    · exact ih _ (Or.inl htail) hstep
    · have h1 : (bleStep s BleEvent.opRejected).settled ≠ none := by
        simp only [bleStep]
        split
        · exact settle_settled_ne_none _ _
        · exact hinv (by simp_all)
      obtain ⟨o, ho⟩ := Option.ne_none_iff_exists'.mp h1
      simp [bleRun_settled_mono _ es o ho]
    · exact ih _ (Or.inr htail) hstep

/-- A disarmed timer stays disarmed and never fires. -/
lemma bleRun_timer_stays_off (es : List BleEvent) (s : RequestState)
    (h1 : s.timerArmed = false) (h2 : s.timerFired = false) :
    (bleRun s es).timerArmed = false ∧ (bleRun s es).timerFired = false := by
  induction es generalizing s with
  | nil => exact ⟨h1, h2⟩
  | cons e es ih =>
    have hstep : (bleStep s e).timerArmed = false ∧
        (bleStep s e).timerFired = false := by
      cases e <;> simp only [bleStep] <;> split <;>
        simp_all [settle_timerArmed, settle_timerFired]
    exact ih _ hstep.1 hstep.2

/-- The retry loop reaches the first non-BLE outcome: when every
execution before `k` fails with a `BleError` and `k` is within the
budget, the loop started at any counter `i ≤ k` returns the outcome of
execution `k`. -/
lemma retryRun_ok_after_ble {α : Type} (attempt : Nat → Except OpError α)
    (maxRetry k : Nat) (v : α) (hK : k ≤ maxRetry)
    (hBle : ∀ j, j < k → ∃ m, attempt j = .error (.bleError m))
    (hOk : attempt k = .ok v) :
    ∀ i, i ≤ k → retryRun attempt maxRetry i = .ok v := by
  suffices h : ∀ n i, i ≤ k → k - i = n →
      retryRun attempt maxRetry i = .ok v by
    exact fun i hi => h (k - i) i hi rfl
  intro n
  induction n with
  | zero =>
    intro i hi hfuel
    have : i = k := by omega
    subst this
    rw [retryRun, hOk]
  | succ n ih =>
    intro i hi hfuel
    have hik : i < k := by omega
    obtain ⟨m, hm⟩ := hBle i hik
    rw [retryRun]
    simp only [hm]
    split
    · exact ih (i + 1) (by omega) (by omega)
    · next hcond => exact absurd ⟨rfl, by omega⟩ hcond

/-- The subscribe loop retries awaited-phase `BleError`s up to the
budget and then hands back the delegate promise of the first execution
whose awaited phase succeeds — whatever that promise's outcome is. -/
lemma subscribeRun_reaches {α : Type} (awaited : Nat → Except OpError Unit)
    (delegatePromise : Nat → Except OpError α)
    (maxRetry k : Nat) (hK : k ≤ maxRetry)
    (hAw : ∀ j, j < k → ∃ m, awaited j = .error (.bleError m))
    (hAwOk : awaited k = .ok ()) :
    ∀ i, i ≤ k →
      subscribeRun awaited delegatePromise maxRetry i = delegatePromise k := by
  suffices h : ∀ n i, i ≤ k → k - i = n →
      subscribeRun awaited delegatePromise maxRetry i = delegatePromise k by
    exact fun i hi => h (k - i) i hi rfl
  intro n
  induction n with
  | zero =>
    intro i hi hfuel
    have : i = k := by omega
    subst this
    rw [subscribeRun, hAwOk]
  | succ n ih =>
    intro i hi hfuel
    have hik : i < k := by omega
    obtain ⟨m, hm⟩ := hAw i hik
    rw [subscribeRun]
    simp only [hm]
    split
    · exact ih (i + 1) (by omega) (by omega)
    · next hcond => exact absurd ⟨rfl, by omega⟩ hcond

/-! ### Claim theorems -/

/-- C1: for every manufacturer advertisement buffer of length at least 7,
the decoder treats byte 3 as the battery percentage with its high bit as
the supports-tilt capability flag (the field the source calls
`supportsUp` / `venetianMode`): the decoded battery is `byte3 & 0x7F`,
and the decoded current and target positions are `raw * 2 - 100` when
the flag is set and the raw bytes otherwise; in particular battery byte
`0x8A` decodes to flag set and battery 10. -/
theorem parseManufacturerData_battery_tilt (b : List Nat)
    (hlen : 7 ≤ b.length) (hbytes : ∀ x ∈ b, x < 256) :
    (parseManufacturerData b).battery = readUInt8 b 3 &&& 0x7F ∧
    ((parseManufacturerData b).supportsUp ↔ readUInt8 b 3 &&& 0x80 ≠ 0) ∧
    (parseManufacturerData b).currentPosition =
      (if readUInt8 b 3 &&& 0x80 ≠ 0 then (readUInt8 b 4 : Int) * 2 - 100
       else (readUInt8 b 4 : Int)) ∧
    (parseManufacturerData b).targetPosition =
      (if readUInt8 b 3 &&& 0x80 ≠ 0 then (readUInt8 b 5 : Int) * 2 - 100
       else (readUInt8 b 5 : Int)) ∧
    (readUInt8 b 3 = 0x8A →
      (parseManufacturerData b).supportsUp = true ∧
      (parseManufacturerData b).battery = 10) := by
  have h3lt : readUInt8 b 3 < 256 := by
    have h4 : 3 < b.length := by omega
    have hmem : b.getD 3 0 ∈ b := by
      rw [List.getD_eq_getElem b 0 h4]
      exact List.getElem_mem h4
    exact hbytes _ hmem
  by_cases hf : readUInt8 b 3 &&& 0x80 ≠ 0
  · refine ⟨?_, ?_, ?_, ?_, ?_⟩
    · simp only [parseManufacturerData]
      rw [if_pos hf]
    · simp only [parseManufacturerData]
      rw [if_pos hf]
      simp [hf]
    · simp only [parseManufacturerData]
      rw [if_pos hf, if_pos hf]
    · simp only [parseManufacturerData]
      rw [if_pos hf, if_pos hf]
    · intro h8A
      simp only [parseManufacturerData]
      rw [if_pos hf]
      refine ⟨rfl, ?_⟩
      show readUInt8 b 3 &&& 127 = 10
      rw [h8A]
      decide
  · have hf0 : readUInt8 b 3 &&& 0x80 = 0 := not_ne_iff.mp hf
    refine ⟨?_, ?_, ?_, ?_, ?_⟩
    · simp only [parseManufacturerData]
      rw [if_neg hf]
      exact (and127_of_and128_eq_zero _ h3lt hf0).symm
    · simp only [parseManufacturerData]
      rw [if_neg hf]
      simp [hf]
    · simp only [parseManufacturerData]
      rw [if_neg hf, if_neg hf]
    · simp only [parseManufacturerData]
      rw [if_neg hf, if_neg hf]
    · intro h8A
      rw [h8A] at hf
      exact absurd (by decide) hf

/-- C1 witness: the theorem at the sample advertisement with battery
byte `0x8A`, positions 30 and 80. -/
theorem parseManufacturerData_battery_tilt_witness :
    (parseManufacturerData mfgSample).battery =
      readUInt8 mfgSample 3 &&& 0x7F ∧
    ((parseManufacturerData mfgSample).supportsUp ↔
      readUInt8 mfgSample 3 &&& 0x80 ≠ 0) ∧
    (parseManufacturerData mfgSample).currentPosition =
      (if readUInt8 mfgSample 3 &&& 0x80 ≠ 0 then
        (readUInt8 mfgSample 4 : Int) * 2 - 100
       else (readUInt8 mfgSample 4 : Int)) ∧
    (parseManufacturerData mfgSample).targetPosition =
      (if readUInt8 mfgSample 3 &&& 0x80 ≠ 0 then
        (readUInt8 mfgSample 5 : Int) * 2 - 100
       else (readUInt8 mfgSample 5 : Int)) ∧
    (readUInt8 mfgSample 3 = 0x8A →
      (parseManufacturerData mfgSample).supportsUp = true ∧
      (parseManufacturerData mfgSample).battery = 10) :=
  parseManufacturerData_battery_tilt mfgSample (by decide) (by decide)

/-- C8: the weekday bitmask of a motor trigger record decodes with
bit 0 as Sunday through bit 6 as Saturday; mask `0x7F` decodes to
"Every Day" and mask `0x00` to an empty day list. -/
theorem weekday_mask_decoding (m : Nat) :
    weekdaysTriggerText 0x7F = "Every Day" ∧
    weekdayDays 0x00 = [] ∧
    (("Sun" ∈ weekdayDays m) ↔ m &&& 0x01 ≠ 0) ∧
    (("Mon" ∈ weekdayDays m) ↔ m &&& 0x02 ≠ 0) ∧
    (("Tue" ∈ weekdayDays m) ↔ m &&& 0x04 ≠ 0) ∧
    (("Wed" ∈ weekdayDays m) ↔ m &&& 0x08 ≠ 0) ∧
    (("Thu" ∈ weekdayDays m) ↔ m &&& 0x10 ≠ 0) ∧
    (("Fri" ∈ weekdayDays m) ↔ m &&& 0x20 ≠ 0) ∧
    (("Sat" ∈ weekdayDays m) ↔ m &&& 0x40 ≠ 0) := by
  refine ⟨by decide, by decide, ?_, ?_, ?_, ?_, ?_, ?_, ?_⟩ <;>
    simp [weekdayDays, mem_ite_singleton]

/-- C10 counterexample: the empty buffer has no NUL byte, yet
`parseCString` returns its full (empty) string unchanged, so the
universally quantified claim fails at the empty buffer. -/
theorem parseCString_empty_counterexample :
    Char.ofNat 0 ∉ ([] : List Char) ∧ parseCString [] = [] := by
  exact ⟨by simp, rfl⟩

/-- C10 (amended to nonempty buffers): for every nonempty buffer whose
string content has no NUL byte, `parseCString` drops the final
character (because `indexOf` returns `-1`), trims, truncates once more
on a stray-zero match — and therefore never returns the full string. -/
theorem parseCString_no_nul (s : List Char) (hne : s ≠ [])
    (hnul : Char.ofNat 0 ∉ s) :
    parseCString s =
      (if strayZeroTest (jsTrim s.dropLast) then
        (jsTrim s.dropLast).dropLast
       else jsTrim s.dropLast) ∧
    parseCString s ≠ s := by
  have hidx : s.findIdx? (fun c => c = Char.ofNat 0) = none := by
    simp only [List.findIdx?_eq_none_iff]
    intro x hx
    simp only [decide_eq_false_iff_not]
    rintro rfl
    exact hnul hx
  have heq : parseCString s =
      (if strayZeroTest (jsTrim s.dropLast) then
        (jsTrim s.dropLast).dropLast
       else jsTrim s.dropLast) := by
    simp only [parseCString, hidx]
  refine ⟨heq, ?_⟩
  have hlen : (parseCString s).length < s.length := by
    rw [heq]
    have h1 : (jsTrim s.dropLast).length ≤ s.dropLast.length :=
      jsTrim_length_le _
    have h2 : s.dropLast.length = s.length - 1 := List.length_dropLast s
    have h3 : 0 < s.length := List.length_pos.mpr hne
    split
    · have h4 : (jsTrim s.dropLast).dropLast.length =
          (jsTrim s.dropLast).length - 1 := List.length_dropLast _
      omega
    · omega
  intro hcontra
  rw [hcontra] at hlen
  omega

/-- C10 witness: the theorem at the five-character name `Shade`. -/
theorem parseCString_no_nul_witness :
    parseCString ['S', 'h', 'a', 'd', 'e'] =
      (if strayZeroTest (jsTrim (['S', 'h', 'a', 'd', 'e'] : List Char).dropLast) then
        (jsTrim (['S', 'h', 'a', 'd', 'e'] : List Char).dropLast).dropLast
       else jsTrim (['S', 'h', 'a', 'd', 'e'] : List Char).dropLast) ∧
    parseCString ['S', 'h', 'a', 'd', 'e'] ≠ ['S', 'h', 'a', 'd', 'e'] :=
  parseCString_no_nul ['S', 'h', 'a', 'd', 'e'] (by decide) (by decide)

/-- C6: at the sample trigger response, the edit frame built by
`setTriggerEnabled` of `lib/SomaClient.js` (off-by-one read and write
offsets) does not decode back to the trigger that was read — the
decoded position and morning-mode flag differ — while the corrected
frame of `src/unnamed/part_002` round-trips exactly: the id and the
whole record (value, weekdays, position, flags, morning mode) are
preserved and the enabled bit equals the requested value. -/
theorem setTriggerEnabled_roundtrip_bug :
    ((parseTriggerRecord
        (setTriggerEnabledFrameLib triggerRespSample 7 true) 3).position ≠
      (parseTriggerRecord triggerRespSample 4).position) ∧
    ((parseTriggerRecord
        (setTriggerEnabledFrameLib triggerRespSample 7 true) 3).morningMode ≠
      (parseTriggerRecord triggerRespSample 4).morningMode) ∧
    triggerRequestId (setTriggerEnabledFrameV2 triggerRespSample 7 true) = 7 ∧
    parseTriggerRecord (setTriggerEnabledFrameV2 triggerRespSample 7 true) 3 =
      parseTriggerRecord triggerRespSample 4 ∧
    (parseTriggerRecord triggerRespSample 4).enabled = true ∧
    triggerRequestId (setTriggerEnabledFrameV2 triggerRespSample 7 false) = 7 ∧
    parseTriggerRecord (setTriggerEnabledFrameV2 triggerRespSample 7 false) 3 =
      { (parseTriggerRecord triggerRespSample 4) with
        flags := 0x80
        enabled := false } := by
  decide

/-- C2: a request executed through `BleClient.request` settles exactly
once: an outcome, once recorded, survives every later event (so a
timeout racing a late native completion never double-resolves — the
stale completion is silently discarded, as the trace starting
`timeout, opFulfilled` shows), and the request does settle whenever the
native operation completes. -/
theorem request_settles_exactly_once
    (enabled periphScoped isDisconnectReq : Bool)
    (pre suf : List BleEvent) (o : Outcome) :
    ((bleRun (clientIssue enabled periphScoped isDisconnectReq
        initRequestState) pre).settled = some o →
      (bleRun (clientIssue enabled periphScoped isDisconnectReq
        initRequestState) (pre ++ suf)).settled = some o) ∧
    ((BleEvent.opFulfilled ∈ pre ∨ BleEvent.opRejected ∈ pre) →
      (bleRun (clientIssue enabled periphScoped isDisconnectReq
        initRequestState) pre).settled ≠ none) ∧
    (bleRun (clientIssue true periphScoped isDisconnectReq initRequestState)
        (BleEvent.timeout :: BleEvent.opFulfilled :: suf)).settled =
      some Outcome.rejectedTimeout := by
  refine ⟨?_, ?_, ?_⟩
  · intro h
    rw [bleRun, List.foldl_append]
    exact bleRun_settled_mono _ suf o h
  · intro hin
    refine bleRun_op_settles pre _ hin ?_
    cases enabled <;> cases periphScoped <;> cases isDisconnectReq <;> decide
  · have h1 : (bleRun (clientIssue true periphScoped isDisconnectReq
        initRequestState) [BleEvent.timeout, BleEvent.opFulfilled]).settled =
        some Outcome.rejectedTimeout := by
      cases periphScoped <;> cases isDisconnectReq <;> decide
    have h2 : BleEvent.timeout :: BleEvent.opFulfilled :: suf =
        [BleEvent.timeout, BleEvent.opFulfilled] ++ suf := rfl
    rw [h2, bleRun, List.foldl_append]
    exact bleRun_settled_mono _ suf _ h1

/-- C2 witness: a client-scoped request whose native operation fulfils;
the recorded outcome survives a later timeout event, and the completion
settles the request. -/
theorem request_settles_exactly_once_witness :
    (bleRun (clientIssue true false false initRequestState)
        ([BleEvent.opFulfilled] ++ [BleEvent.timeout])).settled =
      some Outcome.resolved ∧
    (bleRun (clientIssue true false false initRequestState)
        [BleEvent.opFulfilled]).settled ≠ none :=
  ⟨(request_settles_exactly_once true false false [BleEvent.opFulfilled]
      [BleEvent.timeout] Outcome.resolved).1 (by decide),
   (request_settles_exactly_once true false false [BleEvent.opFulfilled]
      [BleEvent.timeout] Outcome.resolved).2.1 (Or.inl (by decide))⟩

/-- C3 counterexample: a subscribe call whose awaited phase succeeds
but whose delegate subscribe promise fails with a BLE discovery error
is *not* retried — the error reaches the caller on the first execution
with the counter at 0, below the default budget of 5, even though a
re-execution would have succeeded — because the delegate call at
`src/unnamed/part_004` line 1468 is returned without `await` and its
rejection bypasses the retry catch.  This refutes the claim as stated
for subscribe calls. -/
theorem subscribe_retry_counterexample :
    isBleError (OpError.bleError "cannot discover characteristic") = true ∧
    0 < bleClientMaxRetry none ∧
    subscribeDiscoveryFailsOnce 1 = .ok 1 ∧
    subscribeRun subscribeAwaitedOk subscribeDiscoveryFailsOnce
        (bleClientMaxRetry none) 0 =
      .error (.bleError "cannot discover characteristic") := by
  refine ⟨rfl, by decide, rfl, ?_⟩
  rw [subscribeRun]
  simp [subscribeAwaitedOk, subscribeDiscoveryFailsOnce]

/-- C3 (amended): for read, write and readAll — whose bodies are fully
awaited — a `BleError` while the counter is below the budget (default
5) re-executes the entire operation with the counter incremented, so
intermediate BLE failures are invisible to the caller, while a non-BLE
error propagates from the very first execution; for subscribe, only
`BleError`s of the awaited connect phase are retried that way, and the
delegate subscribe promise (discovery and the native subscribe) of the
first execution whose awaited phase succeeds is handed to the caller
un-retried, whatever its outcome. -/
theorem retry_policy {α : Type} (a1 a2 : Nat → Except OpError α)
    (awaited : Nat → Except OpError Unit)
    (delegatePromise : Nat → Except OpError α)
    (maxRetry k k2 : Nat) (v : α) (e : OpError)
    (hK : k ≤ maxRetry)
    (hBle : ∀ j, j < k → ∃ m, a1 j = .error (.bleError m))
    (hOk : a1 k = .ok v)
    (hNb : isBleError e = false)
    (hE : a2 0 = .error e)
    (hK2 : k2 ≤ maxRetry)
    (hAw : ∀ j, j < k2 → ∃ m, awaited j = .error (.bleError m))
    (hAwOk : awaited k2 = .ok ()) :
    retryRun a1 maxRetry 0 = .ok v ∧
    retryRun a2 maxRetry 0 = .error e ∧
    bleClientMaxRetry none = 5 ∧
    subscribeRun awaited delegatePromise maxRetry 0 = delegatePromise k2 := by
  refine ⟨retryRun_ok_after_ble a1 maxRetry k v hK hBle hOk 0 (Nat.zero_le _),
    ?_, rfl,
    subscribeRun_reaches awaited delegatePromise maxRetry k2 hK2 hAw hAwOk 0
      (Nat.zero_le _)⟩
  rw [retryRun]
  simp only [hE]
  split
  · next hcond => rw [hNb] at hcond; simp at hcond
  · rfl

/-- C3 witness: three consecutive timeouts under the default budget of
5 succeed transparently on the fourth execution of a read; an
unknown-key `RangeError` propagates immediately; and a subscribe whose
connect phase times out twice hands back the third delegate promise. -/
theorem retry_policy_witness :
    retryRun attemptThreeTimeouts 5 0 = .ok 42 ∧
    retryRun attemptUnknownKey 5 0 =
      .error (.rangeError "motorService: unknown service key") ∧
    bleClientMaxRetry none = 5 ∧
    subscribeRun subscribeConnectTwoTimeouts subscribeDiscoveryFailsOnce 5 0 =
      subscribeDiscoveryFailsOnce 2 :=
  retry_policy attemptThreeTimeouts attemptUnknownKey
    subscribeConnectTwoTimeouts subscribeDiscoveryFailsOnce 5 3 2 42
    (.rangeError "motorService: unknown service key")
    (by omega)
    (fun j hj => ⟨"no response in 15s", by
      interval_cases j <;> rfl⟩)
    (by rfl) (by rfl) (by rfl)
    (by omega)
    (fun j hj => ⟨"no response in 15s", by
      interval_cases j <;> rfl⟩)
    (by rfl)

/-- C4 counterexample: a read issued through the peripheral delegate
while the adapter is disabled *does* create the timeout timer and *does*
emit the request event before rejecting — refuting the claim's
"without creating the timeout timer and without emitting the request
event" — though it does fail immediately with the bluetooth-disabled
error. -/
theorem request_while_disabled_counterexample :
    (delegateIssue false false).timerCreated = true ∧
    (delegateIssue false false).emittedRequest = true ∧
    (delegateIssue false false).settled = some Outcome.rejectedDisabled := by
  decide

/-- C4 (amended): a request issued while the adapter is disabled fails
immediately with the bluetooth-disabled error; the timeout timer is
created but cleared synchronously, so it never fires under any later
event sequence; and the request event has still been emitted (a
peripheral-scoped request emits it in the delegate before the check,
a client-scoped one inside `request` before the check). -/
theorem request_while_disabled_behavior
    (periphScoped isDisconnectReq : Bool) (suf : List BleEvent) :
    (clientIssue false periphScoped isDisconnectReq
        initRequestState).settled = some Outcome.rejectedDisabled ∧
    (clientIssue false periphScoped isDisconnectReq
        initRequestState).timerCreated = true ∧
    (delegateIssue false isDisconnectReq).emittedRequest = true ∧
    (bleRun (clientIssue false periphScoped isDisconnectReq
        initRequestState) suf).settled = some Outcome.rejectedDisabled ∧
    (bleRun (clientIssue false periphScoped isDisconnectReq
        initRequestState) suf).timerFired = false := by
  have h1 : (clientIssue false periphScoped isDisconnectReq
      initRequestState).settled = some Outcome.rejectedDisabled := by
    cases periphScoped <;> cases isDisconnectReq <;> decide
  have h2 : (clientIssue false periphScoped isDisconnectReq
      initRequestState).timerArmed = false ∧
      (clientIssue false periphScoped isDisconnectReq
      initRequestState).timerFired = false := by
    cases periphScoped <;> cases isDisconnectReq <;> decide
  refine ⟨h1, ?_, ?_, ?_, ?_⟩
  · cases periphScoped <;> cases isDisconnectReq <;> decide
  · cases isDisconnectReq <;> decide
  · exact bleRun_settled_mono _ suf _ h1
  · exact (bleRun_timer_stays_off suf _ h2.1 h2.2).2

/-- C5: after the disconnect handler has run, every service delegate's
native handle is null and, through the service setter's cascade, every
characteristic delegate's handle is null; a subsequent read or write
then issues the service and characteristic discovery requests before
the operation itself. -/
theorem disconnect_nulls_handles (sds : List ServiceDelegateM)
    (sd : ServiceDelegateM) (cd : CharacteristicDelegateM)
    (hsd : sd ∈ onDisconnect sds)
    (hcd : cd ∈ sd.characteristicDelegates) :
    sd.service = none ∧ cd.characteristic = none ∧
    readTrace sd cd =
      [BleAction.connectA, BleAction.discoverService sd.key,
       BleAction.discoverCharacteristic cd.key, BleAction.readA cd.key] ∧
    writeTrace sd cd =
      [BleAction.connectA, BleAction.discoverService sd.key,
       BleAction.discoverCharacteristic cd.key, BleAction.writeA cd.key] := by
  obtain ⟨sd0, hsd0, rfl⟩ := List.mem_map.mp hsd
  have hsvc : (setService sd0 none).service = none := rfl
  have hcds : (setService sd0 none).characteristicDelegates =
      sd0.characteristicDelegates.map
        (fun cd => { cd with characteristic := none }) := by
    simp [setService]
  rw [hcds] at hcd
  obtain ⟨cd0, hcd0, rfl⟩ := List.mem_map.mp hcd
  refine ⟨hsvc, rfl, ?_, ?_⟩ <;> simp [readTrace, writeTrace, hsvc]

/-- C5 witness: the theorem at a connected sample delegate. -/
theorem disconnect_nulls_handles_witness :
    (setService svcSample none).service = none ∧
    ({ key := "motorTargetState", characteristic := none } :
      CharacteristicDelegateM).characteristic = none ∧
    readTrace (setService svcSample none)
        { key := "motorTargetState", characteristic := none } =
      [BleAction.connectA,
       BleAction.discoverService (setService svcSample none).key,
       BleAction.discoverCharacteristic "motorTargetState",
       BleAction.readA "motorTargetState"] ∧
    writeTrace (setService svcSample none)
        { key := "motorTargetState", characteristic := none } =
      [BleAction.connectA,
       BleAction.discoverService (setService svcSample none).key,
       BleAction.discoverCharacteristic "motorTargetState",
       BleAction.writeA "motorTargetState"] :=
  disconnect_nulls_handles [svcSample] (setService svcSample none)
    { key := "motorTargetState", characteristic := none }
    (by decide) (by decide)

/-- C7: the map `readAll` returns over a service contains exactly the
characteristics whose capability flags include read and whose read
produced a non-null parsed value; a write-only characteristic
contributes no entry, as the two-characteristic scenario shows. -/
theorem readAll_entries {V : Type} (cs : List (String × Bool × Option V))
    (k : String) (v w : V) :
    (((k, v) ∈ readAllService cs) ↔ (k, true, some v) ∈ cs) ∧
    readAllService [("readable", true, some v), ("writeOnly", false, some w)] =
      [("readable", v)] := by
  constructor
  · induction cs with
    | nil => simp [readAllService]
    | cons c rest ih =>
      obtain ⟨k2, canRead, parsed⟩ := c
      cases canRead <;> cases parsed <;>
        simp_all [readAllService, Prod.ext_iff]
  · rfl

/-- C9 counterexample: during `readAll`, a known characteristic whose
decoder throws on its buffer is *included* in the returned map with the
raw hex fallback value — not omitted — while the remaining
characteristics are still read. -/
theorem readAll_decode_error_counterexample :
    readAllWithDecode
        [("bad", true, [0xAB], decodeSampleBad),
         ("good", true, [0x05], decodeSampleGood)] =
      [("bad", ParsedValue.hex "0xAB"), ("good", ParsedValue.value 5)] ∧
    ("bad", ParsedValue.hex "0xAB") ∈ readAllWithDecode
        [("bad", true, [0xAB], decodeSampleBad),
         ("good", true, [0x05], decodeSampleGood)] := by
  exact ⟨rfl, by decide⟩

/-- C9 (amended): a decode failure during `readAll` does not abort the
aggregate read — every readable characteristic still contributes an
entry — and the malformed characteristic's field is included with the
hex rendering of its raw buffer rather than omitted. -/
theorem readAll_decode_error_keeps_field {V : Type}
    (cs : List (String × Bool × List Nat × (List Nat → Option V)))
    (k : String) (buf : List Nat) (f : List Nat → Option V)
    (hmem : (k, true, buf, f) ∈ cs) :
    (∃ p, (k, p) ∈ readAllWithDecode cs) ∧
    (f buf = none → buf ≠ [] →
      (k, ParsedValue.hex (bufferToHexJs buf)) ∈ readAllWithDecode cs) := by
  induction cs with
  | nil => simp at hmem
  | cons c rest ih =>
    rcases List.mem_cons.mp hmem with heq | htail
    · subst heq
      constructor
      · exact ⟨responseParsedValue f buf, by simp [readAllWithDecode]⟩
      · intro hf hbuf
        have hpv : responseParsedValue f buf =
            ParsedValue.hex (bufferToHexJs buf) := by
          have hlen : 0 < buf.length := List.length_pos.mpr hbuf
          simp [responseParsedValue, hlen, hf]
        simp [readAllWithDecode, hpv]
    · obtain ⟨h1, h2⟩ := ih htail
      obtain ⟨k2, canRead, buf2, f2⟩ := c
      constructor
      · obtain ⟨p, hp⟩ := h1
        exact ⟨p, by cases canRead <;> simp_all [readAllWithDecode]⟩
      · intro hf hbuf
        have := h2 hf hbuf
        cases canRead <;> simp_all [readAllWithDecode]

/-- C9 witness: the amended theorem at the two-characteristic sample
with a throwing decoder on the first. -/
theorem readAll_decode_error_keeps_field_witness :
    (∃ p, ("bad", p) ∈ readAllWithDecode
        [("bad", true, [0xAB], decodeSampleBad),
         ("good", true, [0x05], decodeSampleGood)]) ∧
    (decodeSampleBad [0xAB] = none → ([0xAB] : List Nat) ≠ [] →
      ("bad", ParsedValue.hex (bufferToHexJs [0xAB])) ∈ readAllWithDecode
        [("bad", true, [0xAB], decodeSampleBad),
         ("good", true, [0x05], decodeSampleGood)]) :=
  readAll_decode_error_keeps_field
    [("bad", true, [0xAB], decodeSampleBad),
     ("good", true, [0x05], decodeSampleGood)]
    "bad" [0xAB] decodeSampleBad (by simp)

end Spec2Proof
